import Mathlib

/-!
Shallow embedding of `src/main.ts` of the btc-price-runner repository: a
single Phaser scene (`RunnerScene`) implementing a side-scrolling runner
whose obstacle colors follow a polled BTC price trend.

Conventions of the embedding:
* JS numbers are modelled as `ℚ` where arbitrary reals flow (positions,
  velocities, time deltas, accumulators) and as `ℤ`/`ℕ` where the code only
  ever produces integers (scroll speed, spawn delay, score).
* The Phaser engine (rendering, physics integration, input plumbing) is
  external: engine-reported facts (body contact flags, body geometry) are
  plain state fields, and the per-frame `update`, the input handler
  `tryJump`, the collision handler `onGameOver` and the asynchronous fetch
  completion (`fetchPriceOnce`) are modelled as explicit state transitions.
* `Math.random()` / `Phaser.Math.Between` draws are supplied as explicit
  inputs (`SpawnRand`), one per `spawnObstacle` call.
-/

namespace BtcRunner

/-- `const DESIGN_WIDTH = 800` (main.ts line 4). -/
def DESIGN_WIDTH : ℚ := 800

/-- `const DESIGN_HEIGHT = 450` (main.ts line 5). -/
def DESIGN_HEIGHT : ℚ := 450

/-- `const BG_BULL = 0x0f1a12` (main.ts line 8). -/
def BG_BULL : ℕ := 0x0f1a12

/-- `const BG_BEAR = 0x0f141a` (main.ts line 9). -/
def BG_BEAR : ℕ := 0x0f141a

/-- `const PRICE_INTERVAL_MS = 5000` (main.ts line 15). -/
def PRICE_INTERVAL_MS : ℚ := 5000

/-- `type Trend = "up" | "down" | "flat"` (main.ts line 17). -/
inductive Trend where
  | up
  | down
  | flat
deriving DecidableEq, Repr

/-- Price UI and poller state of `RunnerScene` (main.ts lines 31-34), plus
the camera background color which is written only here and in `create`. -/
structure PriceState where
  lastPrice : Option ℚ
  curPrice : Option ℚ
  priceTrend : Trend
  priceText : String
  bgColor : ℕ
deriving DecidableEq, Repr

/-- Outcome of one `fetch` + `r.json()` + `parseFloat(j.price)` round trip
(main.ts lines 118-120), as observed by `fetchPriceOnce`:
* `throws` — the `await fetch`, the `await r.json()` or the field access
  threw (network error, or a body that is not valid JSON), landing in the
  `catch` block;
* `payload none` — the JSON parsed but `parseFloat(j.price)` is `NaN`
  (missing or non-numeric `price` field), so `isNaN(p)` is true;
* `payload (some p)` — `parseFloat(j.price)` produced the number `p`. -/
inductive FetchOutcome where
  | throws
  | payload (price : Option ℚ)
deriving DecidableEq, Repr

/-- The price display string built on a successful parse (main.ts line 135);
`toLocaleString` digit grouping is abstracted to `toString`. -/
def priceDisplay (p : ℚ) : String := "BTC: " ++ toString p ++ " USDT"

/-- `fetchPriceOnce` (main.ts lines 116-142), as a function of the fetch
outcome. On `throws` the `catch` block runs: only the price text changes.
When `isNaN(p)` the guarded block is skipped entirely and nothing changes.
Otherwise: `if (this.curPrice !== null) this.lastPrice = this.curPrice;
this.curPrice = p;` then the trend classification and UI updates. -/
def fetchPriceOnce (st : PriceState) (o : FetchOutcome) : PriceState :=
  match o with
  | .throws => { st with priceText := "BTC: fetch error" }
  | .payload none => st
  | .payload (some p) =>
      let last : Option ℚ := if st.curPrice.isSome then st.curPrice else st.lastPrice
      let trend : Trend :=
        match last with
        | none => .flat
        | some q => if p = q then .flat else if q < p then .up else .down
      { lastPrice := last
        curPrice := some p
        priceTrend := trend
        priceText := priceDisplay p
        bgColor := if trend = .up then BG_BULL else BG_BEAR }

/-- Initial price state: field initializers at main.ts lines 32-34, the
`"BTC: …"` placeholder text (line 92) and the initial bear background
(line 58). -/
def initPriceState : PriceState :=
  { lastPrice := none
    curPrice := none
    priceTrend := .flat
    priceText := "BTC: …"
    bgColor := BG_BEAR }

/-- One successfully-parsed price sample fed through `fetchPriceOnce`. -/
def applyParsedPrice (st : PriceState) (p : ℚ) : PriceState :=
  fetchPriceOnce st (.payload (some p))

/-- The price state after a sequence of successfully parsed samples,
starting from the initial state. -/
def runPrices (l : List ℚ) : PriceState :=
  l.foldl applyParsedPrice initPriceState

/-- Price states reachable from the initial state by any sequence of fetch
completions (successful or failed). -/
inductive PriceReach : PriceState → Prop where
  | init : PriceReach initPriceState
  | fetch {st : PriceState} (o : FetchOutcome) :
      PriceReach st → PriceReach (fetchPriceOnce st o)

/-- `this.jumpVelocity = -630` (main.ts line 41). -/
def jumpVelocity : ℚ := -630

/-- `this.gravityY = 1400` (main.ts line 42); applied by the engine, kept
for reference. -/
def gravityY : ℚ := 1400

/-- `this.groundY = Math.floor(height * 0.85)` (main.ts line 55) with the
design height 450 (FIT scaling keeps the logical size). -/
def groundYInit : ℚ := ((⌊DESIGN_HEIGHT * 0.85⌋ : ℤ) : ℚ)

/-- `Math.floor(450 * 0.85) = 382`. -/
lemma groundYInit_eq : groundYInit = 382 := by
  unfold groundYInit DESIGN_HEIGHT
  have h : ⌊(450 : ℚ) * 0.85⌋ = 382 := by
    rw [Int.floor_eq_iff]
    constructor <;> norm_num
  rw [h]
  norm_num

/-- The random draws consumed by one `spawnObstacle` call
(main.ts lines 205-208): `gapTop = Phaser.Math.Between(130, max(170,
groundY - 220))`, `gap = Phaser.Math.Between(gapMin, gapMax)`, and the
`Math.random() < 0.5` coin used when the trend is flat. The draws are
supplied as inputs to the model; their ranges are engine-guaranteed and not
needed by any claim. -/
structure SpawnRand where
  gapTop : ℤ
  gap : ℤ
  coin : Bool
deriving DecidableEq, Repr

/-- One member rectangle of an obstacle pair (main.ts lines 210-221): the
game-object x/y (center), display size, horizontal body velocity, candle
color side, and the `_scored` tag (a plain JS property, absent hence falsy
at creation, set to `true` on scoring — main.ts lines 179-182). -/
structure Obstacle where
  x : ℚ
  y : ℚ
  w : ℚ
  h : ℚ
  vx : ℚ
  bullish : Bool
  scored : Bool
deriving DecidableEq, Repr

/-- Player state: the game-object center `y` (read by the fall-off-top
check at main.ts line 194), the arcade body's top `bodyY`, `bodyHeight`
and vertical velocity (main.ts lines 154-157), and the engine-reported
ground contact flags `blocked.down` / `touching.down` (main.ts line 147). -/
structure Player where
  y : ℚ
  bodyY : ℚ
  bodyHeight : ℚ
  velY : ℚ
  blockedDown : Bool
  touchingDown : Bool
deriving DecidableEq, Repr

/-- The mutable state of `RunnerScene` (main.ts lines 19-49) relevant to
gameplay. `overlayCount` counts how many times the game-over overlay
(texts + input blocker, main.ts lines 233-246) has been created, and
`fetchesIssued` counts fire-and-forget `fetchPriceOnce()` calls issued by
`update` (main.ts line 165); both are observers for once-only behavior. -/
structure GameState where
  groundY : ℚ
  score : ℕ
  scoreText : String
  price : PriceState
  priceAcc : ℚ
  speed : ℤ
  gapMin : ℤ
  gapMax : ℤ
  spawnDelay : ℤ
  spawnAcc : ℚ
  player : Player
  obstacles : List Obstacle
  gameOverShown : Bool
  overlayCount : ℕ
  fetchesIssued : ℕ
deriving DecidableEq, Repr

/-- `create()` (main.ts lines 53-113): score reset to 0 (line 81), score
text `"Score: 0"` (line 82), price placeholder (line 92), and the runtime
variable reset block (lines 107-112): `spawnAcc = 0`,
`priceAcc = PRICE_INTERVAL_MS`, `spawnDelay = 1200`, `speed = 180`,
`gameOverShown = false`. The player circle is created at
`(width * 0.25, groundY - 18)` with radius 18 (line 69). -/
def initState : GameState :=
  { groundY := groundYInit
    score := 0
    scoreText := "Score: 0"
    price := initPriceState
    priceAcc := PRICE_INTERVAL_MS
    speed := 180
    gapMin := 264
    gapMax := 308
    spawnDelay := 1200
    spawnAcc := 0
    player :=
      { y := groundYInit - 18
        bodyY := groundYInit - 36
        bodyHeight := 36
        velY := 0
        blockedDown := false
        touchingDown := false }
    obstacles := []
    gameOverShown := false
    overlayCount := 0
    fetchesIssued := 0 }

/-- `tryJump()` (main.ts lines 144-148). -/
def tryJump (gs : GameState) : GameState :=
  if gs.gameOverShown then gs
  else if gs.player.blockedDown || gs.player.touchingDown then
    { gs with player := { gs.player with velY := jumpVelocity } }
  else gs

/-- The ground clamp at the top of `update` (main.ts lines 153-158):
`if (b.y + b.height > this.groundY) { b.y = this.groundY - b.height;
b.velocity.y = Math.max(0, b.velocity.y); }`. -/
def clampPlayer (gs : GameState) : GameState :=
  if gs.player.bodyY + gs.player.bodyHeight > gs.groundY then
    { gs with player :=
        { gs.player with
          bodyY := gs.groundY - gs.player.bodyHeight
          velY := max 0 gs.player.velY } }
  else gs

/-- The price-fetch accumulator step of `update` (main.ts lines 160-166):
add `delta`; on reaching the interval, reset the accumulator to 0 and issue
a fire-and-forget fetch (whose completion is the separate `fetchPriceOnce`
transition). -/
def stepPriceAcc (gs : GameState) (delta : ℚ) : GameState :=
  let acc := gs.priceAcc + delta
  if acc ≥ PRICE_INTERVAL_MS then
    { gs with priceAcc := 0, fetchesIssued := gs.fetchesIssued + 1 }
  else
    { gs with priceAcc := acc }

/-- `spawnObstacle()` (main.ts lines 197-224): create the top and bottom
candles at `spawnX = width + 24` with leftward velocity `-speed`, color by
trend (coin toss when flat), and append both to the obstacle group. -/
def spawnObstacle (gs : GameState) (r : SpawnRand) : GameState :=
  let spawnX : ℚ := DESIGN_WIDTH + 24
  let bullish : Bool :=
    match gs.price.priceTrend with
    | .up => true
    | .down => false
    | .flat => r.coin
  let gapTop : ℚ := (r.gapTop : ℚ)
  let gap : ℚ := (r.gap : ℚ)
  let topHeight : ℚ := max 60 (gapTop - 40)
  let top : Obstacle :=
    { x := spawnX, y := topHeight / 2, w := 26, h := topHeight
      vx := -(gs.speed : ℚ), bullish := bullish, scored := false }
  let bottomY : ℚ := gs.groundY
  let bottomHeight : ℚ := max 80 (bottomY - (gapTop + gap))
  let bottom : Obstacle :=
    { x := spawnX, y := bottomY - bottomHeight / 2, w := 26, h := bottomHeight
      vx := -(gs.speed : ℚ), bullish := bullish, scored := false }
  { gs with obstacles := gs.obstacles ++ [top, bottom] }

/-- The body of the scoring branch in `update` (main.ts lines 180-186):
increment the score, refresh the score text, and apply the difficulty ramp
`speed = Math.min(speed + 8, 420)`, `spawnDelay = Math.max(spawnDelay - 10,
885)`. -/
def applyScoreEvent (gs : GameState) : GameState :=
  { gs with
    score := gs.score + 1
    scoreText := "Score: " ++ toString (gs.score + 1)
    speed := min (gs.speed + 8) 420
    spawnDelay := max (gs.spawnDelay - 10) 885 }

/-- The per-object body of `obstacles.children.each` (main.ts lines
176-192): an object past `x < -60` scores once unless its `_scored` tag is
set and is destroyed (dropped from the group) either way; any other object
gets its horizontal velocity refreshed to `-speed`. -/
def stepObstacle (gs : GameState) (o : Obstacle) : GameState :=
  if o.x < -60 then
    if o.scored then gs else applyScoreEvent gs
  else
    { gs with obstacles := gs.obstacles ++ [{ o with vx := -(gs.speed : ℚ) }] }

/-- The whole `obstacles.children.each` pass (main.ts lines 176-192):
`each` iterates over a snapshot of the group in insertion order; survivors
are re-collected in order. -/
def processObstacles (gs : GameState) : GameState :=
  List.foldl stepObstacle { gs with obstacles := [] } gs.obstacles

/-- `onGameOver()` (main.ts lines 226-247): guarded by the latched flag;
otherwise latch it, zero every obstacle's velocity, and create the
game-over overlay (modelled by `overlayCount`). The restart listeners start
a fresh session and are outside this transition system. -/
def onGameOver (gs : GameState) : GameState :=
  if gs.gameOverShown then gs
  else
    { gs with
      gameOverShown := true
      obstacles := gs.obstacles.map (fun o => { o with vx := 0 })
      overlayCount := gs.overlayCount + 1 }

/-- The obstacle-spawn accumulator loop of `update` (main.ts lines
170-173): `while (spawnAcc >= spawnDelay) { spawnAcc -= spawnDelay;
spawnObstacle(); }`. `rng i` supplies the random draws of the `i`-th spawn
of this frame. The source loop diverges if `spawnDelay ≤ 0` (it never is:
it stays ≥ 885); the guard `0 < gs.spawnDelay` makes the model total. -/
def runSpawnLoop (gs : GameState) (rng : ℕ → SpawnRand) (i : ℕ) : GameState :=
  if h : (gs.spawnDelay : ℚ) ≤ gs.spawnAcc ∧ 0 < gs.spawnDelay then
    runSpawnLoop
      (spawnObstacle { gs with spawnAcc := gs.spawnAcc - (gs.spawnDelay : ℚ) } (rng i))
      rng (i + 1)
  else gs
termination_by (⌈gs.spawnAcc / (gs.spawnDelay : ℚ)⌉).toNat
decreasing_by
  simp only [spawnObstacle]
  have hd : (0 : ℚ) < (gs.spawnDelay : ℚ) := by exact_mod_cast h.2
  have h1 : (1 : ℚ) ≤ gs.spawnAcc / (gs.spawnDelay : ℚ) :=
    (one_le_div hd).mpr h.1
  have hsub : (gs.spawnAcc - (gs.spawnDelay : ℚ)) / (gs.spawnDelay : ℚ)
      = gs.spawnAcc / (gs.spawnDelay : ℚ) - 1 := by
    rw [sub_div, div_self hd.ne']
  have hceil : (1 : ℤ) ≤ ⌈gs.spawnAcc / (gs.spawnDelay : ℚ)⌉ :=
    Int.one_le_ceil_iff.mpr (lt_of_lt_of_le one_pos h1)
  rw [hsub]
  rw [show (gs.spawnAcc / (gs.spawnDelay : ℚ) - 1) = gs.spawnAcc / (gs.spawnDelay : ℚ) - (1 : ℤ) by push_cast; ring]
  rw [Int.ceil_sub_int]
  omega

/-- `update(_, delta)` (main.ts lines 150-195): early-out on game over,
then ground clamp, price accumulator, spawn accumulator loop, obstacle
pass, and the fall-off-top game-over check. -/
def update (gs : GameState) (delta : ℚ) (rng : ℕ → SpawnRand) : GameState :=
  if gs.gameOverShown then gs
  else
    let gs1 := clampPlayer gs
    let gs2 := stepPriceAcc gs1 delta
    let gs3 := runSpawnLoop { gs2 with spawnAcc := gs2.spawnAcc + delta } rng 0
    let gs4 := processObstacles gs3
    if gs4.player.y < -40 then onGameOver gs4 else gs4

/-- Completion of an in-flight price fetch, mutating only the price state
(main.ts lines 116-142); not gated on the game-over flag. -/
def fetchComplete (gs : GameState) (o : FetchOutcome) : GameState :=
  { gs with price := fetchPriceOnce gs.price o }

/-- Session states reachable from `Init` by scoring events, the only
transitions that touch `score`, `speed` and `spawnDelay`
(main.ts lines 179-187). -/
inductive ScoringReach : GameState → Prop where
  | init : ScoringReach initState
  | score {gs : GameState} : ScoringReach gs → ScoringReach (applyScoreEvent gs)

/-- The session state after `n` consecutive scoring events from `Init`. -/
def sessionAfter (n : ℕ) : GameState := applyScoreEvent^[n] initState

/-! ### Field-preservation lemmas -/

@[simp] lemma spawnObstacle_spawnAcc (gs : GameState) (r : SpawnRand) :
    (spawnObstacle gs r).spawnAcc = gs.spawnAcc := rfl

@[simp] lemma spawnObstacle_spawnDelay (gs : GameState) (r : SpawnRand) :
    (spawnObstacle gs r).spawnDelay = gs.spawnDelay := rfl

@[simp] lemma spawnObstacle_player (gs : GameState) (r : SpawnRand) :
    (spawnObstacle gs r).player = gs.player := rfl

@[simp] lemma spawnObstacle_gameOverShown (gs : GameState) (r : SpawnRand) :
    (spawnObstacle gs r).gameOverShown = gs.gameOverShown := rfl

@[simp] lemma spawnObstacle_score (gs : GameState) (r : SpawnRand) :
    (spawnObstacle gs r).score = gs.score := rfl

@[simp] lemma spawnObstacle_speed (gs : GameState) (r : SpawnRand) :
    (spawnObstacle gs r).speed = gs.speed := rfl

@[simp] lemma spawnObstacle_price (gs : GameState) (r : SpawnRand) :
    (spawnObstacle gs r).price = gs.price := rfl

@[simp] lemma spawnObstacle_priceAcc (gs : GameState) (r : SpawnRand) :
    (spawnObstacle gs r).priceAcc = gs.priceAcc := rfl

@[simp] lemma spawnObstacle_groundY (gs : GameState) (r : SpawnRand) :
    (spawnObstacle gs r).groundY = gs.groundY := rfl

@[simp] lemma spawnObstacle_overlayCount (gs : GameState) (r : SpawnRand) :
    (spawnObstacle gs r).overlayCount = gs.overlayCount := rfl

@[simp] lemma spawnObstacle_obstacles_length (gs : GameState) (r : SpawnRand) :
    (spawnObstacle gs r).obstacles.length = gs.obstacles.length + 2 := by
  simp [spawnObstacle]

@[simp] lemma clampPlayer_spawnAcc (gs : GameState) :
    (clampPlayer gs).spawnAcc = gs.spawnAcc := by
  unfold clampPlayer; split <;> rfl

@[simp] lemma clampPlayer_spawnDelay (gs : GameState) :
    (clampPlayer gs).spawnDelay = gs.spawnDelay := by
  unfold clampPlayer; split <;> rfl

@[simp] lemma clampPlayer_gameOverShown (gs : GameState) :
    (clampPlayer gs).gameOverShown = gs.gameOverShown := by
  unfold clampPlayer; split <;> rfl

@[simp] lemma clampPlayer_score (gs : GameState) :
    (clampPlayer gs).score = gs.score := by
  unfold clampPlayer; split <;> rfl

@[simp] lemma clampPlayer_obstacles (gs : GameState) :
    (clampPlayer gs).obstacles = gs.obstacles := by
  unfold clampPlayer; split <;> rfl

@[simp] lemma clampPlayer_price (gs : GameState) :
    (clampPlayer gs).price = gs.price := by
  unfold clampPlayer; split <;> rfl

@[simp] lemma clampPlayer_priceAcc (gs : GameState) :
    (clampPlayer gs).priceAcc = gs.priceAcc := by
  unfold clampPlayer; split <;> rfl

@[simp] lemma clampPlayer_groundY (gs : GameState) :
    (clampPlayer gs).groundY = gs.groundY := by
  unfold clampPlayer; split <;> rfl

@[simp] lemma stepPriceAcc_player (gs : GameState) (d : ℚ) :
    (stepPriceAcc gs d).player = gs.player := by
  by_cases h : gs.priceAcc + d ≥ PRICE_INTERVAL_MS <;> simp [stepPriceAcc, h]

@[simp] lemma stepPriceAcc_spawnAcc (gs : GameState) (d : ℚ) :
    (stepPriceAcc gs d).spawnAcc = gs.spawnAcc := by
  by_cases h : gs.priceAcc + d ≥ PRICE_INTERVAL_MS <;> simp [stepPriceAcc, h]

@[simp] lemma stepPriceAcc_spawnDelay (gs : GameState) (d : ℚ) :
    (stepPriceAcc gs d).spawnDelay = gs.spawnDelay := by
  by_cases h : gs.priceAcc + d ≥ PRICE_INTERVAL_MS <;> simp [stepPriceAcc, h]

@[simp] lemma stepPriceAcc_gameOverShown (gs : GameState) (d : ℚ) :
    (stepPriceAcc gs d).gameOverShown = gs.gameOverShown := by
  by_cases h : gs.priceAcc + d ≥ PRICE_INTERVAL_MS <;> simp [stepPriceAcc, h]

@[simp] lemma stepPriceAcc_score (gs : GameState) (d : ℚ) :
    (stepPriceAcc gs d).score = gs.score := by
  by_cases h : gs.priceAcc + d ≥ PRICE_INTERVAL_MS <;> simp [stepPriceAcc, h]

@[simp] lemma stepPriceAcc_obstacles (gs : GameState) (d : ℚ) :
    (stepPriceAcc gs d).obstacles = gs.obstacles := by
  by_cases h : gs.priceAcc + d ≥ PRICE_INTERVAL_MS <;> simp [stepPriceAcc, h]

@[simp] lemma stepPriceAcc_price (gs : GameState) (d : ℚ) :
    (stepPriceAcc gs d).price = gs.price := by
  by_cases h : gs.priceAcc + d ≥ PRICE_INTERVAL_MS <;> simp [stepPriceAcc, h]

@[simp] lemma stepPriceAcc_groundY (gs : GameState) (d : ℚ) :
    (stepPriceAcc gs d).groundY = gs.groundY := by
  by_cases h : gs.priceAcc + d ≥ PRICE_INTERVAL_MS <;> simp [stepPriceAcc, h]

@[simp] lemma onGameOver_player (gs : GameState) :
    (onGameOver gs).player = gs.player := by
  unfold onGameOver; split <;> rfl

@[simp] lemma onGameOver_spawnAcc (gs : GameState) :
    (onGameOver gs).spawnAcc = gs.spawnAcc := by
  unfold onGameOver; split <;> rfl

@[simp] lemma onGameOver_spawnDelay (gs : GameState) :
    (onGameOver gs).spawnDelay = gs.spawnDelay := by
  unfold onGameOver; split <;> rfl

@[simp] lemma onGameOver_score (gs : GameState) :
    (onGameOver gs).score = gs.score := by
  unfold onGameOver; split <;> rfl

@[simp] lemma onGameOver_price (gs : GameState) :
    (onGameOver gs).price = gs.price := by
  unfold onGameOver; split <;> rfl

@[simp] lemma onGameOver_groundY (gs : GameState) :
    (onGameOver gs).groundY = gs.groundY := by
  unfold onGameOver; split <;> rfl

@[simp] lemma applyScoreEvent_player (gs : GameState) :
    (applyScoreEvent gs).player = gs.player := rfl

@[simp] lemma applyScoreEvent_obstacles (gs : GameState) :
    (applyScoreEvent gs).obstacles = gs.obstacles := rfl

@[simp] lemma applyScoreEvent_gameOverShown (gs : GameState) :
    (applyScoreEvent gs).gameOverShown = gs.gameOverShown := rfl

@[simp] lemma applyScoreEvent_spawnAcc (gs : GameState) :
    (applyScoreEvent gs).spawnAcc = gs.spawnAcc := rfl

@[simp] lemma applyScoreEvent_price (gs : GameState) :
    (applyScoreEvent gs).price = gs.price := rfl

@[simp] lemma applyScoreEvent_priceAcc (gs : GameState) :
    (applyScoreEvent gs).priceAcc = gs.priceAcc := rfl

@[simp] lemma applyScoreEvent_groundY (gs : GameState) :
    (applyScoreEvent gs).groundY = gs.groundY := rfl

@[simp] lemma applyScoreEvent_score (gs : GameState) :
    (applyScoreEvent gs).score = gs.score + 1 := rfl

@[simp] lemma applyScoreEvent_speed (gs : GameState) :
    (applyScoreEvent gs).speed = min (gs.speed + 8) 420 := rfl

@[simp] lemma applyScoreEvent_spawnDelay (gs : GameState) :
    (applyScoreEvent gs).spawnDelay = max (gs.spawnDelay - 10) 885 := rfl

/-! ### Spawn-loop lemmas -/

lemma runSpawnLoop_stop {gs : GameState} (rng : ℕ → SpawnRand) (i : ℕ)
    (h : ¬((gs.spawnDelay : ℚ) ≤ gs.spawnAcc ∧ 0 < gs.spawnDelay)) :
    runSpawnLoop gs rng i = gs := by
  rw [runSpawnLoop.eq_def]
  simp only [dif_neg h]

lemma runSpawnLoop_step {gs : GameState} (rng : ℕ → SpawnRand) (i : ℕ)
    (h : (gs.spawnDelay : ℚ) ≤ gs.spawnAcc ∧ 0 < gs.spawnDelay) :
    runSpawnLoop gs rng i
      = runSpawnLoop
          (spawnObstacle { gs with spawnAcc := gs.spawnAcc - (gs.spawnDelay : ℚ) } (rng i))
          rng (i + 1) := by
  conv_lhs => rw [runSpawnLoop.eq_def]
  simp only [dif_pos h]

lemma runSpawnLoop_preserves (gs : GameState) (rng : ℕ → SpawnRand) (i : ℕ) :
    (runSpawnLoop gs rng i).player = gs.player ∧
    (runSpawnLoop gs rng i).gameOverShown = gs.gameOverShown ∧
    (runSpawnLoop gs rng i).score = gs.score ∧
    (runSpawnLoop gs rng i).speed = gs.speed ∧
    (runSpawnLoop gs rng i).spawnDelay = gs.spawnDelay ∧
    (runSpawnLoop gs rng i).price = gs.price ∧
    (runSpawnLoop gs rng i).priceAcc = gs.priceAcc ∧
    (runSpawnLoop gs rng i).groundY = gs.groundY := by
  induction gs, rng, i using runSpawnLoop.induct with
  | case1 gs rng i h ih =>
      rw [runSpawnLoop_step rng i h]
      simpa using ih
  | case2 gs rng i h =>
      rw [runSpawnLoop_stop rng i h]
      exact ⟨rfl, rfl, rfl, rfl, rfl, rfl, rfl, rfl⟩

@[simp] lemma runSpawnLoop_player (gs : GameState) (rng : ℕ → SpawnRand) (i : ℕ) :
    (runSpawnLoop gs rng i).player = gs.player := (runSpawnLoop_preserves gs rng i).1

@[simp] lemma runSpawnLoop_gameOverShown (gs : GameState) (rng : ℕ → SpawnRand) (i : ℕ) :
    (runSpawnLoop gs rng i).gameOverShown = gs.gameOverShown :=
  (runSpawnLoop_preserves gs rng i).2.1

@[simp] lemma runSpawnLoop_score (gs : GameState) (rng : ℕ → SpawnRand) (i : ℕ) :
    (runSpawnLoop gs rng i).score = gs.score := (runSpawnLoop_preserves gs rng i).2.2.1

@[simp] lemma runSpawnLoop_spawnDelay (gs : GameState) (rng : ℕ → SpawnRand) (i : ℕ) :
    (runSpawnLoop gs rng i).spawnDelay = gs.spawnDelay :=
  (runSpawnLoop_preserves gs rng i).2.2.2.2.1

@[simp] lemma runSpawnLoop_price (gs : GameState) (rng : ℕ → SpawnRand) (i : ℕ) :
    (runSpawnLoop gs rng i).price = gs.price :=
  (runSpawnLoop_preserves gs rng i).2.2.2.2.2.1

@[simp] lemma runSpawnLoop_groundY (gs : GameState) (rng : ℕ → SpawnRand) (i : ℕ) :
    (runSpawnLoop gs rng i).groundY = gs.groundY :=
  (runSpawnLoop_preserves gs rng i).2.2.2.2.2.2.2

/-- Arithmetic of the spawn accumulator loop: with a positive interval and
a nonnegative accumulator, the loop runs `⌊acc / delay⌋` times, each run
spawning one obstacle pair (two rectangles), and leaves
`acc - delay * ⌊acc / delay⌋` in the accumulator. -/
lemma runSpawnLoop_spec :
    ∀ (gs : GameState) (rng : ℕ → SpawnRand) (i : ℕ),
      0 < gs.spawnDelay → 0 ≤ gs.spawnAcc →
      (runSpawnLoop gs rng i).spawnAcc
          = gs.spawnAcc
            - (gs.spawnDelay : ℚ) * (⌊gs.spawnAcc / (gs.spawnDelay : ℚ)⌋ : ℚ) ∧
      (runSpawnLoop gs rng i).obstacles.length
          = gs.obstacles.length + 2 * (⌊gs.spawnAcc / (gs.spawnDelay : ℚ)⌋).toNat := by
  intro gs rng i
  induction gs, rng, i using runSpawnLoop.induct with
  | case1 gs rng i h ih =>
      intro hd ha
      have hdq : (0 : ℚ) < (gs.spawnDelay : ℚ) := by exact_mod_cast hd
      have hsub : (gs.spawnAcc - (gs.spawnDelay : ℚ)) / (gs.spawnDelay : ℚ)
          = gs.spawnAcc / (gs.spawnDelay : ℚ) - 1 := by
        rw [sub_div, div_self hdq.ne']
      have hfl : ⌊(gs.spawnAcc - (gs.spawnDelay : ℚ)) / (gs.spawnDelay : ℚ)⌋
          = ⌊gs.spawnAcc / (gs.spawnDelay : ℚ)⌋ - 1 := by
        rw [hsub]
        exact_mod_cast Int.floor_sub_int (gs.spawnAcc / (gs.spawnDelay : ℚ)) 1
      have hanew : (0 : ℚ) ≤ gs.spawnAcc - (gs.spawnDelay : ℚ) := by
        linarith [h.1]
      have hge1 : (0 : ℤ) ≤ ⌊(gs.spawnAcc - (gs.spawnDelay : ℚ)) / (gs.spawnDelay : ℚ)⌋ :=
        Int.floor_nonneg.mpr (div_nonneg hanew hdq.le)
      rw [runSpawnLoop_step rng i h]
      obtain ⟨ih1, ih2⟩ := by
        refine ih ?_ ?_
        · simpa using hd
        · simpa using hanew
      constructor
      · rw [ih1]
        simp only [spawnObstacle_spawnAcc, spawnObstacle_spawnDelay]
        simp only [hfl]
        push_cast
        ring
      · rw [ih2]
        simp only [spawnObstacle_obstacles_length, spawnObstacle_spawnAcc,
          spawnObstacle_spawnDelay]
        simp only [hfl]
        omega
  | case2 gs rng i h =>
      intro hd ha
      have hlt : gs.spawnAcc < (gs.spawnDelay : ℚ) := by
        by_contra hcon
        exact h ⟨le_of_not_lt hcon, hd⟩
      have hfl : ⌊gs.spawnAcc / (gs.spawnDelay : ℚ)⌋ = 0 := by
        have hdq : (0 : ℚ) < (gs.spawnDelay : ℚ) := by exact_mod_cast hd
        apply Int.floor_eq_zero_iff.mpr
        constructor
        · exact div_nonneg ha hdq.le
        · exact (div_lt_one hdq).mpr hlt
      rw [runSpawnLoop_stop rng i h, hfl]
      simp

/-! ### Obstacle-pass lemmas -/

/-- The predicate deciding whether an obstacle object scores in this frame:
it is past the left-exit threshold and its one-shot flag is unset. -/
def scoresNow (o : Obstacle) : Bool := decide (o.x < -60) && !o.scored

lemma foldl_stepObstacle_score (l : List Obstacle) :
    ∀ gs : GameState,
      (List.foldl stepObstacle gs l).score = gs.score + l.countP scoresNow := by
  induction l with
  | nil => intro gs; simp
  | cons o l ih =>
      intro gs
      by_cases hx : o.x < -60
      · by_cases hs : o.scored
        · simp [stepObstacle, hx, hs, ih, List.countP_cons, scoresNow]
        · simp [stepObstacle, hx, hs, ih, List.countP_cons, scoresNow]
          omega
      · simp [stepObstacle, hx, ih, List.countP_cons, scoresNow]

lemma foldl_stepObstacle_preserves (l : List Obstacle) :
    ∀ gs : GameState,
      (List.foldl stepObstacle gs l).player = gs.player ∧
      (List.foldl stepObstacle gs l).gameOverShown = gs.gameOverShown ∧
      (List.foldl stepObstacle gs l).spawnAcc = gs.spawnAcc ∧
      (List.foldl stepObstacle gs l).price = gs.price ∧
      (List.foldl stepObstacle gs l).priceAcc = gs.priceAcc ∧
      (List.foldl stepObstacle gs l).groundY = gs.groundY := by
  induction l with
  | nil => intro gs; exact ⟨rfl, rfl, rfl, rfl, rfl, rfl⟩
  | cons o l ih =>
      intro gs
      obtain ⟨h1, h2, h3, h4, h5, h6⟩ := ih (stepObstacle gs o)
      have hfields :
          (stepObstacle gs o).player = gs.player ∧
          (stepObstacle gs o).gameOverShown = gs.gameOverShown ∧
          (stepObstacle gs o).spawnAcc = gs.spawnAcc ∧
          (stepObstacle gs o).price = gs.price ∧
          (stepObstacle gs o).priceAcc = gs.priceAcc ∧
          (stepObstacle gs o).groundY = gs.groundY := by
        unfold stepObstacle
        split
        · split <;> exact ⟨rfl, rfl, rfl, rfl, rfl, rfl⟩
        · exact ⟨rfl, rfl, rfl, rfl, rfl, rfl⟩
      simp only [List.foldl_cons]
      exact ⟨h1.trans hfields.1, h2.trans hfields.2.1, h3.trans hfields.2.2.1,
        h4.trans hfields.2.2.2.1, h5.trans hfields.2.2.2.2.1, h6.trans hfields.2.2.2.2.2⟩

lemma foldl_stepObstacle_mem (l : List Obstacle) :
    ∀ (gs : GameState) (o : Obstacle),
      o ∈ (List.foldl stepObstacle gs l).obstacles →
      o ∈ gs.obstacles ∨ ¬(o.x < -60) := by
  induction l with
  | nil => intro gs o hm; exact Or.inl hm
  | cons a l ih =>
      intro gs o hm
      rcases ih (stepObstacle gs a) o hm with hin | hx
      · by_cases hax : a.x < -60
        · by_cases has : a.scored
          · simp [stepObstacle, hax, has] at hin
            exact Or.inl hin
          · simp [stepObstacle, hax, has, applyScoreEvent] at hin
            exact Or.inl hin
        · simp [stepObstacle, hax] at hin
          rcases hin with hin | rfl
          · exact Or.inl hin
          · exact Or.inr (by simpa using hax)
      · exact Or.inr hx

@[simp] lemma processObstacles_score (gs : GameState) :
    (processObstacles gs).score = gs.score + gs.obstacles.countP scoresNow := by
  unfold processObstacles
  rw [foldl_stepObstacle_score]

@[simp] lemma processObstacles_player (gs : GameState) :
    (processObstacles gs).player = gs.player :=
  (foldl_stepObstacle_preserves gs.obstacles _).1

@[simp] lemma processObstacles_gameOverShown (gs : GameState) :
    (processObstacles gs).gameOverShown = gs.gameOverShown :=
  (foldl_stepObstacle_preserves gs.obstacles _).2.1

@[simp] lemma processObstacles_spawnAcc (gs : GameState) :
    (processObstacles gs).spawnAcc = gs.spawnAcc :=
  (foldl_stepObstacle_preserves gs.obstacles _).2.2.1

@[simp] lemma processObstacles_price (gs : GameState) :
    (processObstacles gs).price = gs.price :=
  (foldl_stepObstacle_preserves gs.obstacles _).2.2.2.1

@[simp] lemma processObstacles_groundY (gs : GameState) :
    (processObstacles gs).groundY = gs.groundY :=
  (foldl_stepObstacle_preserves gs.obstacles _).2.2.2.2.2

lemma processObstacles_mem (gs : GameState) (o : Obstacle)
    (hm : o ∈ (processObstacles gs).obstacles) : ¬(o.x < -60) := by
  rcases foldl_stepObstacle_mem gs.obstacles _ o hm with hin | hx
  · simp at hin
  · exact hx

/-! ### Update composition lemmas -/

lemma update_eq_of_playing (gs : GameState) (delta : ℚ) (rng : ℕ → SpawnRand)
    (h : gs.gameOverShown = false) :
    update gs delta rng
      = (let gs4 := processObstacles
            (runSpawnLoop
              { stepPriceAcc (clampPlayer gs) delta with
                  spawnAcc := (stepPriceAcc (clampPlayer gs) delta).spawnAcc + delta }
              rng 0)
         if gs4.player.y < -40 then onGameOver gs4 else gs4) := by
  unfold update
  rw [if_neg (by simp [h])]

lemma update_player_of_playing (gs : GameState) (delta : ℚ) (rng : ℕ → SpawnRand)
    (h : gs.gameOverShown = false) :
    (update gs delta rng).player = (clampPlayer gs).player := by
  rw [update_eq_of_playing gs delta rng h]
  dsimp only
  split <;> simp

lemma update_spawnAcc_of_playing (gs : GameState) (delta : ℚ) (rng : ℕ → SpawnRand)
    (h : gs.gameOverShown = false) (hd : 0 < gs.spawnDelay)
    (ha : 0 ≤ gs.spawnAcc + delta) :
    (update gs delta rng).spawnAcc
      = (gs.spawnAcc + delta)
        - (gs.spawnDelay : ℚ) * (⌊(gs.spawnAcc + delta) / (gs.spawnDelay : ℚ)⌋ : ℚ) := by
  rw [update_eq_of_playing gs delta rng h]
  dsimp only
  set R : GameState :=
    { stepPriceAcc (clampPlayer gs) delta with
        spawnAcc := (stepPriceAcc (clampPlayer gs) delta).spawnAcc + delta } with hR
  have hRacc : R.spawnAcc = gs.spawnAcc + delta := by rw [hR]; simp
  have hRdel : R.spawnDelay = gs.spawnDelay := by rw [hR]; simp
  have hspec := (runSpawnLoop_spec R rng 0
    (by rw [hRdel]; exact hd) (by rw [hRacc]; exact ha)).1
  rw [hRacc, hRdel] at hspec
  split
  · simp only [onGameOver_spawnAcc, processObstacles_spawnAcc]
    exact hspec
  · simp only [processObstacles_spawnAcc]
    exact hspec

/-! ### Price-sequence lemmas -/

lemma runPrices_append (l : List ℚ) (p : ℚ) :
    runPrices (l ++ [p]) = applyParsedPrice (runPrices l) p := by
  simp [runPrices, List.foldl_append]

@[simp] lemma applyParsedPrice_curPrice (st : PriceState) (p : ℚ) :
    (applyParsedPrice st p).curPrice = some p := by
  simp [applyParsedPrice, fetchPriceOnce]

lemma runPrices_last_of_cur_none {l : List ℚ}
    (h : (runPrices l).curPrice = none) : (runPrices l).lastPrice = none := by
  rcases List.eq_nil_or_concat l with rfl | ⟨l0, p, rfl⟩
  · rfl
  · rw [List.concat_eq_append, runPrices_append] at h
    simp at h

/-! ### Scoring-invariant lemmas -/

lemma scoring_invariant {gs : GameState} (h : ScoringReach gs) :
    gs.speed = min (180 + 8 * (gs.score : ℤ)) 420 ∧
    gs.spawnDelay = max (1200 - 10 * (gs.score : ℤ)) 885 := by
  induction h with
  | init => constructor <;> rfl
  | score _ ih =>
      obtain ⟨ih1, ih2⟩ := ih
      constructor
      · simp only [applyScoreEvent_speed, applyScoreEvent_score, ih1]
        push_cast
        omega
      · simp only [applyScoreEvent_spawnDelay, applyScoreEvent_score, ih2]
        push_cast
        omega

lemma sessionAfter_succ (n : ℕ) :
    sessionAfter (n + 1) = applyScoreEvent (sessionAfter n) := by
  unfold sessionAfter
  rw [Function.iterate_succ_apply']

lemma sessionAfter_reach (n : ℕ) : ScoringReach (sessionAfter n) := by
  induction n with
  | zero => exact ScoringReach.init
  | succ n ih => rw [sessionAfter_succ]; exact ScoringReach.score ih

@[simp] lemma sessionAfter_score (n : ℕ) : (sessionAfter n).score = n := by
  induction n with
  | zero => rfl
  | succ n ih => rw [sessionAfter_succ]; simp [ih]

lemma sessionAfter_speed (n : ℕ) :
    (sessionAfter n).speed = min (180 + 8 * (n : ℤ)) 420 := by
  have h := (scoring_invariant (sessionAfter_reach n)).1
  rwa [sessionAfter_score] at h

lemma sessionAfter_spawnDelay (n : ℕ) :
    (sessionAfter n).spawnDelay = max (1200 - 10 * (n : ℤ)) 885 := by
  have h := (scoring_invariant (sessionAfter_reach n)).2
  rwa [sessionAfter_score] at h

/-! ### Concrete states used by counterexamples and witnesses -/

/-- A fixed random-draw stream for concrete runs. -/
def rngConst : ℕ → SpawnRand := fun _ => { gapTop := 200, gap := 280, coin := true }

/-- A freshly spawned obstacle pair, scrolled until both members sit past
the left-exit threshold `x < -60` with their one-shot flags still unset. -/
def pairExitState : GameState :=
  let g := spawnObstacle initState (rngConst 0)
  { g with obstacles := g.obstacles.map (fun o => { o with x := -61 }) }

/-- Three obstacle objects: an exited already-scored one, an exited
unscored one, and one still on screen. -/
def mixedExitState : GameState :=
  { initState with obstacles :=
      [ { x := -61, y := 30, w := 26, h := 60, vx := -180, bullish := true, scored := true },
        { x := -61, y := 352, w := 26, h := 80, vx := -180, bullish := true, scored := false },
        { x := 100, y := 30, w := 26, h := 60, vx := -180, bullish := false, scored := false } ] }

/-! ### Claim theorems -/

/-- Claim C1, counterexample: an obstacle *pair* is two rectangles, each
carrying its own `_scored` flag, and both cross `x < -60` in the same
frame; processing the frame increments the score by 2, not by 1, so a pair
does contribute more than one increment. -/
theorem claim1_pair_scores_twice_cex :
    (processObstacles pairExitState).score = pairExitState.score + 2 ∧
    (processObstacles pairExitState).score ≠ pairExitState.score + 1 := by
  decide

/-- Claim C1, amended: scoring is exactly once per obstacle *object*
(rectangle), not per pair: a frame's obstacle pass adds one point for every
object past the left-exit threshold whose one-shot flag is unset (hence two
points for a full pair), every such object is destroyed in that same frame
(so it can never score again), and every surviving object is left of the
threshold test. -/
theorem claim1_score_per_object (gs : GameState) :
    (processObstacles gs).score = gs.score + gs.obstacles.countP scoresNow ∧
    ∀ o ∈ (processObstacles gs).obstacles, ¬(o.x < -60) :=
  ⟨processObstacles_score gs, fun o hm => processObstacles_mem gs o hm⟩

/-- Claim C1, witness: concrete run of the amended statement on a mix of
scored/unscored exited objects and one live object. -/
theorem claim1_score_per_object_witness :
    (processObstacles mixedExitState).score
        = mixedExitState.score + mixedExitState.obstacles.countP scoresNow ∧
    ∀ o ∈ (processObstacles mixedExitState).obstacles, ¬(o.x < -60) :=
  claim1_score_per_object mixedExitState

/-- Claim C2, counterexample: a fetch completion whose JSON parsed but
whose `price` field is not numeric (`parseFloat` gives `NaN`) leaves the
price display unchanged — the error string is *not* shown, because the
`isNaN` guard silently skips the block and no exception reaches `catch`. -/
theorem claim2_nan_payload_cex :
    (fetchPriceOnce initPriceState (.payload none)).priceText = "BTC: …" ∧
    (fetchPriceOnce initPriceState (.payload none)).priceText ≠ "BTC: fetch error" := by
  decide

/-- Claim C2, amended: every failed price fetch leaves last price, current
price and trend unchanged; the display is set to the error string exactly
when the fetch or JSON decoding threw (network error / malformed body),
while a parsed payload with a non-numeric price field changes nothing at
all, display included. -/
theorem claim2_error_paths_state (st : PriceState) :
    (fetchPriceOnce st .throws).lastPrice = st.lastPrice ∧
    (fetchPriceOnce st .throws).curPrice = st.curPrice ∧
    (fetchPriceOnce st .throws).priceTrend = st.priceTrend ∧
    (fetchPriceOnce st .throws).priceText = "BTC: fetch error" ∧
    fetchPriceOnce st (.payload none) = st :=
  ⟨rfl, rfl, rfl, rfl, rfl⟩

/-- Claim C3: for any sequence of successfully parsed prices, after each
new sample the previous current price has been shifted into the last
price, the new sample is the current price, and the trend is flat for the
first sample, flat on equality, up on a strict increase and down on a
strict decrease. -/
theorem claim3_trend_classification (l : List ℚ) (p : ℚ) :
    (runPrices (l ++ [p])).curPrice = some p ∧
    (runPrices (l ++ [p])).lastPrice = (runPrices l).curPrice ∧
    ((runPrices l).curPrice = none → (runPrices (l ++ [p])).priceTrend = Trend.flat) ∧
    ∀ q : ℚ, (runPrices l).curPrice = some q →
      (p = q → (runPrices (l ++ [p])).priceTrend = Trend.flat) ∧
      (q < p → (runPrices (l ++ [p])).priceTrend = Trend.up) ∧
      (p < q → (runPrices (l ++ [p])).priceTrend = Trend.down) := by
  rw [runPrices_append]
  cases hc : (runPrices l).curPrice with
  | none =>
      have hl := runPrices_last_of_cur_none hc
      refine ⟨by simp, ?_, ?_, ?_⟩
      · simp [applyParsedPrice, fetchPriceOnce, hc, hl]
      · intro _
        simp [applyParsedPrice, fetchPriceOnce, hc, hl]
      · intro q hq
        simp at hq
  | some q0 =>
      refine ⟨by simp, ?_, ?_, ?_⟩
      · simp [applyParsedPrice, fetchPriceOnce, hc]
      · intro h0
        simp at h0
      · intro q hq
        obtain rfl : q0 = q := by injection hq
        refine ⟨?_, ?_, ?_⟩
        · intro hpq
          simp [applyParsedPrice, fetchPriceOnce, hc, hpq]
        · intro hlt
          have hne : ¬(p = q0) := by
            rintro rfl
            exact lt_irrefl _ hlt
          simp [applyParsedPrice, fetchPriceOnce, hc, hne, hlt]
        · intro hlt
          have hne : ¬(p = q0) := by
            rintro rfl
            exact lt_irrefl _ hlt
          have hnlt : ¬(q0 < p) := not_lt.mpr hlt.le
          simp [applyParsedPrice, fetchPriceOnce, hc, hne, hnlt]

/-- Claim C3, witness: prices 60000 then 60500 give trend up, with the
first sample shifted into last price. -/
theorem claim3_trend_witness :
    (runPrices ([60000] ++ [60500])).priceTrend = Trend.up ∧
    (runPrices ([60000] ++ [60500])).lastPrice = (runPrices [60000]).curPrice := by
  have h := claim3_trend_classification [60000] 60500
  refine ⟨?_, h.2.1⟩
  exact ((h.2.2.2 60000 (by decide)).2.1 (by norm_num))

/-- Claim C4: each scoring event adds 8 to the scroll speed capped at 420
and subtracts 10 from the spawn interval floored at 885; speed is
monotonically non-decreasing and bounded by 420, the interval
monotonically non-increasing and bounded below by 885; from the base
values 180/1200, ten events give speed 260 and interval 1100, the cap is
first reached at 30 events and the floor at 32. -/
theorem claim4_difficulty_ramp :
    (sessionAfter 0).speed = 180 ∧ (sessionAfter 0).spawnDelay = 1200 ∧
    (∀ n : ℕ, (sessionAfter (n + 1)).speed = min ((sessionAfter n).speed + 8) 420) ∧
    (∀ n : ℕ, (sessionAfter (n + 1)).spawnDelay
        = max ((sessionAfter n).spawnDelay - 10) 885) ∧
    (∀ n : ℕ, (sessionAfter n).speed = min (180 + 8 * (n : ℤ)) 420) ∧
    (∀ n : ℕ, (sessionAfter n).spawnDelay = max (1200 - 10 * (n : ℤ)) 885) ∧
    (∀ n : ℕ, (sessionAfter n).speed ≤ (sessionAfter (n + 1)).speed) ∧
    (∀ n : ℕ, (sessionAfter n).speed ≤ 420) ∧
    (∀ n : ℕ, (sessionAfter (n + 1)).spawnDelay ≤ (sessionAfter n).spawnDelay) ∧
    (∀ n : ℕ, 885 ≤ (sessionAfter n).spawnDelay) ∧
    (sessionAfter 10).speed = 260 ∧ (sessionAfter 10).spawnDelay = 1100 ∧
    (sessionAfter 30).speed = 420 ∧ (sessionAfter 29).speed < 420 ∧
    (sessionAfter 32).spawnDelay = 885 ∧ 885 < (sessionAfter 31).spawnDelay := by
  refine ⟨rfl, rfl, ?_, ?_, sessionAfter_speed, sessionAfter_spawnDelay,
    ?_, ?_, ?_, ?_, ?_, ?_, ?_, ?_, ?_, ?_⟩
  · intro n
    rw [sessionAfter_succ]
    simp
  · intro n
    rw [sessionAfter_succ]
    simp
  · intro n
    rw [sessionAfter_speed, sessionAfter_speed]
    push_cast
    omega
  · intro n
    rw [sessionAfter_speed]
    omega
  · intro n
    rw [sessionAfter_spawnDelay, sessionAfter_spawnDelay]
    push_cast
    omega
  · intro n
    rw [sessionAfter_spawnDelay]
    omega
  · rw [sessionAfter_speed]
    decide
  · rw [sessionAfter_spawnDelay]
    decide
  · rw [sessionAfter_speed]
    decide
  · rw [sessionAfter_speed]
    decide
  · rw [sessionAfter_spawnDelay]
    decide
  · rw [sessionAfter_spawnDelay]
    decide

/-- Claim C5: a jump request is a no-op when the game-over flag is set or
the body has no ground contact; otherwise it only sets the vertical
velocity to the fixed upward value -630. -/
theorem claim5_jump_contract (gs : GameState) :
    jumpVelocity = -630 ∧
    (gs.gameOverShown = true → tryJump gs = gs) ∧
    (gs.gameOverShown = false →
      ((gs.player.blockedDown || gs.player.touchingDown) = true →
        tryJump gs = { gs with player := { gs.player with velY := jumpVelocity } }) ∧
      ((gs.player.blockedDown || gs.player.touchingDown) = false → tryJump gs = gs)) := by
  refine ⟨rfl, ?_, ?_⟩
  · intro h
    simp [tryJump, h]
  · intro h
    constructor
    · intro hg
      simp [tryJump, h, hg]
    · intro hg
      simp [tryJump, h, hg]

/-- Claim C5, witness: concrete grounded jump and ignored game-over jump. -/
theorem claim5_jump_witness :
    (tryJump { initState with player := { initState.player with blockedDown := true } }).player.velY
      = -630 ∧
    tryJump { initState with gameOverShown := true }
      = { initState with gameOverShown := true } := by
  constructor
  · have h := ((claim5_jump_contract
      { initState with player := { initState.player with blockedDown := true } }).2.2 rfl).1 rfl
    rw [h]
    rfl
  · exact (claim5_jump_contract { initState with gameOverShown := true }).2.1 rfl

/-- Claim C6: once the game-over flag is set, the per-frame update, jump
input and a repeated game-over entry are all exact no-ops (so the flag
stays set, obstacle velocities are zeroed only by the single first entry
and the overlay is created exactly once), a fetch completion preserves the
flag, and the first entry from a playing state latches the flag, creates
one overlay and zeroes every obstacle velocity. -/
theorem claim6_gameover_latched (gs : GameState) (delta : ℚ) (rng : ℕ → SpawnRand)
    (o : FetchOutcome) (h : gs.gameOverShown = true) :
    update gs delta rng = gs ∧
    tryJump gs = gs ∧
    onGameOver gs = gs ∧
    (fetchComplete gs o).gameOverShown = true ∧
    (∀ gs2 : GameState, gs2.gameOverShown = false →
      (onGameOver gs2).gameOverShown = true ∧
      (onGameOver gs2).overlayCount = gs2.overlayCount + 1 ∧
      ∀ ob ∈ (onGameOver gs2).obstacles, ob.vx = 0) := by
  refine ⟨?_, ?_, ?_, ?_, ?_⟩
  · simp [update, h]
  · simp [tryJump, h]
  · simp [onGameOver, h]
  · simp [fetchComplete, h]
  · intro gs2 h2
    refine ⟨?_, ?_, ?_⟩
    · simp [onGameOver, h2]
    · simp [onGameOver, h2]
    · intro ob hob
      simp [onGameOver, h2] at hob
      obtain ⟨o0, _, rfl⟩ := hob
      rfl

/-- Claim C6, witness: the latched no-ops at a concrete game-over state. -/
theorem claim6_gameover_witness :
    update (onGameOver initState) 16 rngConst = onGameOver initState ∧
    tryJump (onGameOver initState) = onGameOver initState ∧
    onGameOver (onGameOver initState) = onGameOver initState ∧
    (fetchComplete (onGameOver initState) .throws).gameOverShown = true := by
  have h := claim6_gameover_latched (onGameOver initState) 16 rngConst .throws rfl
  exact ⟨h.1, h.2.1, h.2.2.1, h.2.2.2.1⟩

/-- Claim C9: in every state reachable by scoring events from `Init`, the
scroll speed is `min (180 + 8 * score) 420` and the spawn interval is
`max (1200 - 10 * score) 885` — difficulty is a pure function of the
score. -/
theorem claim9_difficulty_invariant (gs : GameState) (h : ScoringReach gs) :
    gs.speed = min (180 + 8 * (gs.score : ℤ)) 420 ∧
    gs.spawnDelay = max (1200 - 10 * (gs.score : ℤ)) 885 :=
  scoring_invariant h

/-- Claim C9, witness: the invariant instantiated after one scoring event. -/
theorem claim9_invariant_witness :
    (applyScoreEvent initState).speed
        = min (180 + 8 * ((applyScoreEvent initState).score : ℤ)) 420 ∧
    (applyScoreEvent initState).spawnDelay
        = max (1200 - 10 * ((applyScoreEvent initState).score : ℤ)) 885 :=
  claim9_difficulty_invariant _ (ScoringReach.score ScoringReach.init)

/-- Claim C10: in every reachable price state, a non-null last price
implies a non-null current price, and an up/down trend implies both prices
are non-null. -/
theorem claim10_price_invariant (st : PriceState) (h : PriceReach st) :
    (st.lastPrice.isSome = true → st.curPrice.isSome = true) ∧
    (st.priceTrend = Trend.up ∨ st.priceTrend = Trend.down →
      st.lastPrice.isSome = true ∧ st.curPrice.isSome = true) := by
  induction h with
  | init =>
      constructor
      · intro h0
        simp [initPriceState] at h0
      · intro h0
        rcases h0 with h0 | h0 <;> exact absurd h0 (by decide)
  | fetch o hp ih =>
      rename_i st
      rcases o with _ | po
      · simpa [fetchPriceOnce] using ih
      · rcases po with _ | p
        · simpa [fetchPriceOnce] using ih
        · cases hc : st.curPrice with
          | none =>
              have hl : st.lastPrice = none := by
                cases hlp : st.lastPrice with
                | none => rfl
                | some r =>
                    have h1 := ih.1 (by simp [hlp])
                    rw [hc] at h1
                    simp at h1
              constructor
              · intro _
                simp [fetchPriceOnce]
              · intro htr
                rcases htr with htr | htr <;> simp [fetchPriceOnce, hc, hl] at htr
          | some q =>
              constructor
              · intro _
                simp [fetchPriceOnce]
              · intro _
                constructor <;> simp [fetchPriceOnce, hc]

/-- Claim C10, witness: the invariant at the state after two successful
parses. -/
theorem claim10_price_witness :
    ((fetchPriceOnce (fetchPriceOnce initPriceState (.payload (some 60000)))
        (.payload (some 60500))).lastPrice.isSome = true →
      (fetchPriceOnce (fetchPriceOnce initPriceState (.payload (some 60000)))
        (.payload (some 60500))).curPrice.isSome = true) ∧
    ((fetchPriceOnce (fetchPriceOnce initPriceState (.payload (some 60000)))
        (.payload (some 60500))).priceTrend = Trend.up ∨
      (fetchPriceOnce (fetchPriceOnce initPriceState (.payload (some 60000)))
        (.payload (some 60500))).priceTrend = Trend.down →
      (fetchPriceOnce (fetchPriceOnce initPriceState (.payload (some 60000)))
        (.payload (some 60500))).lastPrice.isSome = true ∧
      (fetchPriceOnce (fetchPriceOnce initPriceState (.payload (some 60000)))
        (.payload (some 60500))).curPrice.isSome = true) :=
  claim10_price_invariant _
    (PriceReach.fetch _ (PriceReach.fetch _ PriceReach.init))

/-- Claim C7: the spawn accumulator loop spawns one obstacle pair per full
spawn interval contained in the accumulator (so one frame can spawn
several), subtracting the interval per spawn instead of resetting, leaving
exactly the accumulator modulo the interval; and a playing frame first
adds `delta` and then behaves this way. -/
theorem claim7_spawn_accumulator (gs : GameState) (rng : ℕ → SpawnRand) (i : ℕ)
    (hd : 0 < gs.spawnDelay) (ha : 0 ≤ gs.spawnAcc) :
    (runSpawnLoop gs rng i).spawnAcc
        = gs.spawnAcc
          - (gs.spawnDelay : ℚ) * (⌊gs.spawnAcc / (gs.spawnDelay : ℚ)⌋ : ℚ) ∧
    0 ≤ (runSpawnLoop gs rng i).spawnAcc ∧
    (runSpawnLoop gs rng i).spawnAcc < (gs.spawnDelay : ℚ) ∧
    (runSpawnLoop gs rng i).obstacles.length
        = gs.obstacles.length + 2 * (⌊gs.spawnAcc / (gs.spawnDelay : ℚ)⌋).toNat ∧
    (∀ (gs0 : GameState) (delta : ℚ), gs0.gameOverShown = false →
      0 < gs0.spawnDelay → 0 ≤ gs0.spawnAcc + delta →
      (update gs0 delta rng).spawnAcc
        = (gs0.spawnAcc + delta)
          - (gs0.spawnDelay : ℚ)
            * (⌊(gs0.spawnAcc + delta) / (gs0.spawnDelay : ℚ)⌋ : ℚ)) := by
  obtain ⟨h1, h2⟩ := runSpawnLoop_spec gs rng i hd ha
  have hdq : (0 : ℚ) < (gs.spawnDelay : ℚ) := by exact_mod_cast hd
  have hrem : gs.spawnAcc - (gs.spawnDelay : ℚ) * (⌊gs.spawnAcc / (gs.spawnDelay : ℚ)⌋ : ℚ)
      = (gs.spawnDelay : ℚ) * Int.fract (gs.spawnAcc / (gs.spawnDelay : ℚ)) := by
    rw [Int.fract, mul_sub, mul_div_cancel₀ _ hdq.ne']
  refine ⟨h1, ?_, ?_, h2,
    fun gs0 delta h0 hd0 ha0 => update_spawnAcc_of_playing gs0 delta rng h0 hd0 ha0⟩
  · rw [h1, hrem]
    exact mul_nonneg hdq.le (Int.fract_nonneg _)
  · rw [h1, hrem]
    calc (gs.spawnDelay : ℚ) * Int.fract (gs.spawnAcc / (gs.spawnDelay : ℚ))
        < (gs.spawnDelay : ℚ) * 1 :=
          mul_lt_mul_of_pos_left (Int.fract_lt_one _) hdq
      _ = (gs.spawnDelay : ℚ) := mul_one _

/-- Claim C7, witness: accumulator 2500 with interval 1200 spawns two
pairs (four rectangles) in one frame and leaves 100 in the accumulator. -/
theorem claim7_spawn_witness :
    (runSpawnLoop { initState with spawnAcc := 2500 } rngConst 0).spawnAcc = 100 ∧
    (runSpawnLoop { initState with spawnAcc := 2500 } rngConst 0).obstacles.length = 4 := by
  have h := claim7_spawn_accumulator { initState with spawnAcc := 2500 } rngConst 0
    (by decide) (by decide)
  have e1 : ({ initState with spawnAcc := 2500 } : GameState).spawnAcc = 2500 := rfl
  have e2 : ({ initState with spawnAcc := 2500 } : GameState).spawnDelay = 1200 := rfl
  have e3 : ({ initState with spawnAcc := 2500 } : GameState).obstacles.length = 0 := rfl
  have hfl : ⌊(2500 : ℚ) / ((1200 : ℤ) : ℚ)⌋ = 2 := by
    rw [Int.floor_eq_iff]
    constructor <;> norm_num
  constructor
  · rw [h.1, e1, e2, hfl]
    norm_num
  · rw [h.2.2.2.1, e1, e2, e3, hfl]
    rfl

/-- A playing state whose player body penetrates the ground plane while
moving downward (positive vertical velocity in screen coordinates). -/
def sunkDownState : GameState :=
  { initState with player := { initState.player with bodyY := 360, velY := 100 } }

/-- A playing state whose player body penetrates the ground plane while
moving upward (negative vertical velocity). -/
def sunkUpState : GameState :=
  { initState with player := { initState.player with bodyY := 360, velY := -5 } }

/-- Claim C8, counterexample: a frame in which the player's body extends
below the ground plane with downward velocity 100 clamps the position but
leaves the velocity at 100 — the update performs
`velocity.y = Math.max(0, velocity.y)`, which does not zero downward
(positive) velocity. -/
theorem claim8_downward_not_zeroed_cex :
    sunkDownState.player.bodyY + sunkDownState.player.bodyHeight > sunkDownState.groundY ∧
    (update sunkDownState 16 rngConst).player.bodyY
        = sunkDownState.groundY - sunkDownState.player.bodyHeight ∧
    (update sunkDownState 16 rngConst).player.velY = 100 ∧
    (update sunkDownState 16 rngConst).player.velY ≠ 0 := by
  have hpen : sunkDownState.player.bodyY + sunkDownState.player.bodyHeight
      > sunkDownState.groundY := by
    norm_num [sunkDownState, initState, groundYInit_eq]
  have hp := update_player_of_playing sunkDownState 16 rngConst rfl
  have hcl : (clampPlayer sunkDownState).player
      = { sunkDownState.player with
            bodyY := sunkDownState.groundY - sunkDownState.player.bodyHeight
            velY := max 0 sunkDownState.player.velY } := by
    unfold clampPlayer
    rw [if_pos hpen]
  refine ⟨hpen, ?_, ?_, ?_⟩
  · rw [hp, hcl]
  · rw [hp, hcl]
    norm_num [sunkDownState, initState]
  · rw [hp, hcl]
    norm_num [sunkDownState, initState]

/-- Claim C8, amended: on a playing frame with the player's body extending
below the ground plane, the update clamps the body back onto the ground
plane and sets the vertical velocity to `max 0 velY`: upward (negative)
velocity is zeroed, while downward (positive) velocity is left unchanged. -/
theorem claim8_clamp_amended (gs : GameState) (delta : ℚ) (rng : ℕ → SpawnRand)
    (h : gs.gameOverShown = false)
    (hpen : gs.player.bodyY + gs.player.bodyHeight > gs.groundY) :
    (update gs delta rng).player.bodyY = gs.groundY - gs.player.bodyHeight ∧
    (update gs delta rng).player.velY = max 0 gs.player.velY ∧
    (0 < gs.player.velY → (update gs delta rng).player.velY = gs.player.velY) ∧
    (gs.player.velY ≤ 0 → (update gs delta rng).player.velY = 0) := by
  have hp := update_player_of_playing gs delta rng h
  rw [hp]
  unfold clampPlayer
  rw [if_pos hpen]
  refine ⟨rfl, rfl, ?_, ?_⟩
  · intro hv
    simp [max_eq_right hv.le]
  · intro hv
    simp [max_eq_left hv]

/-- Claim C8, witness: with upward velocity -5 while penetrating the
ground, the amended statement clamps the body to the ground plane and
zeroes the velocity. -/
theorem claim8_clamp_witness :
    (update sunkUpState 16 rngConst).player.bodyY
        = sunkUpState.groundY - sunkUpState.player.bodyHeight ∧
    (update sunkUpState 16 rngConst).player.velY = 0 := by
  have h := claim8_clamp_amended sunkUpState 16 rngConst rfl
    (by norm_num [sunkUpState, initState, groundYInit_eq])
  exact ⟨h.1, h.2.2.2 (by norm_num [sunkUpState, initState])⟩

end BtcRunner
